import Mathlib

/-!
Formal model of the chartAI streaming chat system.

Server side: the frame emitter in `src/server/src/app.service.ts`
(`AppController.getHello`), which converts an upstream delta sequence into
wire frames.

Client side: the stream decoder and chat session state machine in
`src/my-app/src/hooks/useChat.js` (`sendMessage`, `processStreamResponse`,
`updateAssistantMessage`) and `src/my-app/src/utils/index.js`
(`parseStreamData`, `extractTextFromParts`, `validateInput`, `formatError`).

Strings on the wire are modelled as `List Char`.  `JSON.parse` is modelled by
a recursive-descent JSON parser (`jsonParse`) over `List Char`.
-/

/-- Brace characters, kept as named constants. -/
def lbrace : Char := Char.ofNat 123

def rbrace : Char := Char.ofNat 125

/-- JSON values as produced by `JSON.parse`.  Numbers keep their raw token
text: no frame of this protocol carries a number that the code inspects, so
numeric value semantics are never needed. -/
inductive Json where
  | null : Json
  | bool (b : Bool) : Json
  | num (raw : List Char) : Json
  | str (s : List Char) : Json
  | arr (elems : List Json) : Json
  | obj (fields : List (List Char × Json)) : Json

/-- JS whitespace test used by `String.prototype.trim` and the JSON parser
(the four whitespace characters JSON itself allows). -/
def isWsChar (c : Char) : Bool :=
  c = ' ' || c = '\t' || c = '\n' || c = '\r'

/-- Model of `String.prototype.trim`. -/
def trimStr (s : List Char) : List Char :=
  ((s.dropWhile isWsChar).reverse.dropWhile isWsChar).reverse

/-- Skip leading JSON whitespace. -/
def skipWs (s : List Char) : List Char :=
  s.dropWhile isWsChar

/-- ASCII digit test. -/
def isDig (c : Char) : Bool :=
  '0' ≤ c && c ≤ '9'

/-- Hex digit value. -/
def hexVal (c : Char) : Option Nat :=
  if '0' ≤ c ∧ c ≤ '9' then some (c.toNat - '0'.toNat)
  else if 'a' ≤ c ∧ c ≤ 'f' then some (c.toNat - 'a'.toNat + 10)
  else if 'A' ≤ c ∧ c ≤ 'F' then some (c.toNat - 'A'.toNat + 10)
  else none

/-- One escape sequence after a backslash inside a JSON string. -/
def escChar : List Char → Option (Char × List Char)
  | '"' :: r => some ('"', r)
  | '\\' :: r => some ('\\', r)
  | '/' :: r => some ('/', r)
  | 'n' :: r => some ('\n', r)
  | 't' :: r => some ('\t', r)
  | 'r' :: r => some ('\r', r)
  | 'b' :: r => some (Char.ofNat 8, r)
  | 'f' :: r => some (Char.ofNat 12, r)
  | 'u' :: h1 :: h2 :: h3 :: h4 :: r =>
    match hexVal h1, hexVal h2, hexVal h3, hexVal h4 with
    | some a, some b, some c, some d => some (Char.ofNat (((a * 16 + b) * 16 + c) * 16 + d), r)
    | _, _, _, _ => none
  | _ => none

/-- JSON string body, after the opening quote; returns the decoded chars and
the remainder after the closing quote. -/
def parseStringBody : Nat → List Char → Option (List Char × List Char)
  | 0, _ => none
  | _, [] => none
  | fuel + 1, c :: rest =>
    if c = '"' then some ([], rest)
    else if c = '\\' then
      match escChar rest with
      | some (ch, rem) => (parseStringBody fuel rem).map (fun p => (ch :: p.1, p.2))
      | none => none
    else if c.toNat < 32 then none
    else (parseStringBody fuel rest).map (fun p => (c :: p.1, p.2))

/-- Optional fraction part of a JSON number. -/
def fracTok : List Char → Option (List Char × List Char)
  | '.' :: r =>
    let ds := r.takeWhile isDig
    if ds = [] then none else some ('.' :: ds, r.dropWhile isDig)
  | s => some ([], s)

/-- Optional exponent part of a JSON number. -/
def expTok : List Char → Option (List Char × List Char)
  | c :: r =>
    if c = 'e' ∨ c = 'E' then
      match r with
      | sg :: r2 =>
        if sg = '+' ∨ sg = '-' then
          let ds := r2.takeWhile isDig
          if ds = [] then none else some (c :: sg :: ds, r2.dropWhile isDig)
        else
          let ds := r.takeWhile isDig
          if ds = [] then none else some (c :: ds, r.dropWhile isDig)
      | [] => none
    else some ([], c :: r)
  | [] => some ([], [])

/-- Fraction and exponent tail of a JSON number. -/
def numTail (s : List Char) : Option (List Char × List Char) :=
  match fracTok s with
  | some (f, r1) =>
    match expTok r1 with
    | some (ex, r2) => some (f ++ ex, r2)
    | none => none
  | none => none

/-- A JSON number token (kept raw), following the JSON grammar
`-? (0 | [1-9][0-9]*) frac? exp?`. -/
def parseNumToken (s : List Char) : Option (List Char × List Char) :=
  let p : List Char × List Char :=
    match s with
    | '-' :: r => (['-'], r)
    | _ => ([], s)
  match p.2 with
  | [] => none
  | c :: r =>
    if c = '0' then
      match numTail r with
      | some (t, rest) => some (p.1 ++ '0' :: t, rest)
      | none => none
    else if isDig c then
      let ds := r.takeWhile isDig
      match numTail (r.dropWhile isDig) with
      | some (t, rest) => some (p.1 ++ c :: ds ++ t, rest)
      | none => none
    else none

mutual

/-- JSON value parser (fuel-indexed recursive descent). -/
def parseValue : Nat → List Char → Option (Json × List Char)
  | 0, _ => none
  | fuel + 1, s =>
    match skipWs s with
    | [] => none
    | c :: rest =>
      if c = '"' then
        (parseStringBody (rest.length + 1) rest).map (fun p => (Json.str p.1, p.2))
      else if c = lbrace then
        match skipWs rest with
        | c2 :: rest2 =>
          if c2 = rbrace then some (Json.obj [], rest2)
          else parseFields fuel (c2 :: rest2)
        | [] => none
      else if c = '[' then
        match skipWs rest with
        | c2 :: rest2 =>
          if c2 = ']' then some (Json.arr [], rest2)
          else parseElems fuel (c2 :: rest2)
        | [] => none
      else if c = 't' then
        match rest with
        | 'r' :: 'u' :: 'e' :: r => some (Json.bool true, r)
        | _ => none
      else if c = 'f' then
        match rest with
        | 'a' :: 'l' :: 's' :: 'e' :: r => some (Json.bool false, r)
        | _ => none
      else if c = 'n' then
        match rest with
        | 'u' :: 'l' :: 'l' :: r => some (Json.null, r)
        | _ => none
      else if c = '-' ∨ isDig c then
        (parseNumToken (c :: rest)).map (fun p => (Json.num p.1, p.2))
      else none

/-- Object members, starting at the first key (whitespace already skipped). -/
def parseFields : Nat → List Char → Option (Json × List Char)
  | 0, _ => none
  | fuel + 1, s =>
    match s with
    | [] => none
    | c :: rest =>
      if c = '"' then
        match parseStringBody (rest.length + 1) rest with
        | some (key, r1) =>
          match skipWs r1 with
          | ':' :: r2 =>
            match parseValue fuel r2 with
            | some (v, r3) =>
              match skipWs r3 with
              | ',' :: r4 =>
                match parseFields fuel (skipWs r4) with
                | some (Json.obj fs, r5) => some (Json.obj ((key, v) :: fs), r5)
                | _ => none
              | cb :: r4 => if cb = rbrace then some (Json.obj [(key, v)], r4) else none
              | [] => none
            | none => none
          | _ => none
        | none => none
      else none

/-- Array elements, starting at the first element (whitespace already
skipped). -/
def parseElems : Nat → List Char → Option (Json × List Char)
  | 0, _ => none
  | fuel + 1, s =>
    match parseValue fuel s with
    | some (v, r1) =>
      match skipWs r1 with
      | ',' :: r2 =>
        match parseElems fuel r2 with
        | some (Json.arr vs, r3) => some (Json.arr (v :: vs), r3)
        | _ => none
      | ']' :: r2 => some (Json.arr [v], r2)
      | _ => none
    | none => none

end

/-- Model of `JSON.parse`: the whole input must be one JSON value, up to
surrounding whitespace. -/
def jsonParse (s : List Char) : Option Json :=
  match parseValue (s.length + 1) s with
  | some (v, rest) => if skipWs rest = [] then some v else none
  | none => none

/-- JS truthiness of a JSON value.  For numbers (kept as raw tokens) the
value is falsy exactly when its mantissa has no nonzero digit; protocol
frames never carry numbers, so this coarse model is never exercised. -/
def jsTruthyV : Json → Bool
  | Json.null => false
  | Json.bool b => b
  | Json.num raw =>
    (raw.takeWhile (fun c => c ≠ 'e' ∧ c ≠ 'E')).any (fun c => '1' ≤ c && c ≤ '9')
  | Json.str s => !s.isEmpty
  | Json.arr _ => true
  | Json.obj _ => true

/-- JS truthiness of a possibly-absent value (`none` = `undefined`). -/
def jsTruthy (o : Option Json) : Bool :=
  match o with
  | none => false
  | some v => jsTruthyV v

/-- JS string coercion of a JSON value; the protocol only ever coerces
strings, so the non-string renderings are coarse. -/
def jsToStr : Json → List Char
  | Json.str s => s
  | Json.bool true => "true".data
  | Json.bool false => "false".data
  | Json.null => "null".data
  | Json.num raw => raw
  | Json.arr _ => []
  | Json.obj _ => "[object Object]".data

/-- Last-wins field lookup (as `JSON.parse` keeps the last duplicate key). -/
def lookupField : List (List Char × Json) → List Char → Option Json
  | [], _ => none
  | (k, v) :: rest, key =>
    match lookupField rest key with
    | some r => some r
    | none => if k = key then some v else none

/-- JS property access `j[key]`; `none` models `undefined`. -/
def fieldOf : Json → List Char → Option Json
  | Json.obj fields, key => lookupField fields key
  | _, _ => none

/-- JS strict equality `===` restricted to the values the decoder compares:
primitives compare structurally, objects and arrays are never
reference-equal across two parses.  `none` models `undefined`. -/
def jsStrictEq : Option Json → Option Json → Bool
  | none, none => true
  | some Json.null, some Json.null => true
  | some (Json.bool a), some (Json.bool b) => decide (a = b)
  | some (Json.num a), some (Json.num b) => decide (a = b)
  | some (Json.str a), some (Json.str b) => decide (a = b)
  | _, _ => false

/-- Whether `data.type === tag` for a parsed frame payload. -/
def typeIs (data : Json) (tag : List Char) : Bool :=
  jsStrictEq (fieldOf data ("type".data)) (some (Json.str tag))

/-- The two-character tag test of `parseStreamData`
(`utils/index.js:162-170`): lines starting `0:`, `d:` or `e:` yield the
remainder after the tag; anything else yields nothing. -/
def tagPayload : List Char → Option (List Char)
  | t :: ':' :: rest => if t = '0' ∨ t = 'd' ∨ t = 'e' then some rest else none
  | _ => none

/-- `parseStreamData` (`utils/index.js:156-178`): blank lines and unknown
tags yield `null`; otherwise the remainder after the tag goes through
`JSON.parse`, and a parse failure yields `null`. -/
def parseStreamData (line : List Char) : Option Json :=
  if trimStr line = [] then none
  else
    match tagPayload line with
    | some jsonStr => jsonParse jsonStr
    | none => none

/-- Text of one message part: `part.text || part.content || part.delta || ''`
(`utils/index.js:33`). -/
def partText (p : Json) : List Char :=
  if jsTruthy (fieldOf p ("text".data)) then jsToStr ((fieldOf p ("text".data)).getD Json.null)
  else if jsTruthy (fieldOf p ("content".data)) then
    jsToStr ((fieldOf p ("content".data)).getD Json.null)
  else if jsTruthy (fieldOf p ("delta".data)) then
    jsToStr ((fieldOf p ("delta".data)).getD Json.null)
  else []

/-- `extractTextFromParts` (`utils/index.js:26-36`) applied to a parsed JSON
parts value: non-arrays give the empty string; text-typed parts contribute
their text, empty contributions are dropped, the rest are joined. -/
def extractTextFromParts (v : Json) : List Char :=
  match v with
  | Json.arr parts =>
    ((((parts.filter (fun p => typeIs p ("text".data))).map partText).filter
        (fun t => !t.isEmpty))).flatten
  | _ => []

/-- Role of a chat message. -/
inductive Role where
  | user : Role
  | assistant : Role
deriving DecidableEq

/-- Session status as set by `setStatus`; the code only ever writes `ready`
and `streaming`, but the spec's state machine names `error` as well, so the
type carries it. -/
inductive Status where
  | ready : Status
  | streaming : Status
  | error : Status
deriving DecidableEq

/-- A chat message as the hook stores it; `parts` always holds one text part
mirrored in `text`, so the model keeps a single `text` field.  `error` is the
per-message error marker set on final failure. -/
structure Msg where
  id : Nat
  role : Role
  text : List Char
  error : Option (List Char)
deriving DecidableEq

/-- Client session state (`useChat`): the message list, the status, the
session-level error, the retry counter (`retryCountRef`) and an id supply
standing in for `generateMessageId`.  `trace` is instrumentation recording
every `setStatus` call in order. -/
structure Session where
  messages : List Msg
  status : Status
  trace : List Status
  error : Option (List Char)
  retryCount : Nat
  nextId : Nat
deriving DecidableEq

/-- `setStatus`: writes the status and records it in the trace. -/
def setStat (s : Session) (st : Status) : Session :=
  { s with status := st, trace := s.trace ++ [st] }

/-- The decoder's closure state inside `processStreamResponse`:
`currentText` and `textPartId`.  `textPartId` starts as JS `null`
(`some Json.null`); `none` models `undefined`. -/
structure StreamVars where
  currentText : List Char
  textPartId : Option Json

/-- Initial decoder state (`let currentText = ''; let textPartId = null`). -/
def varsInit : StreamVars :=
  ⟨[], some Json.null⟩

/-- Shape of a message: everything except its mutable text. -/
def msgShape (m : Msg) : Nat × Role × Option (List Char) :=
  (m.id, m.role, m.error)

/-- The buffering split of `processStreamResponse`
(`useChat.js:170-172`): `buffer.split('\n')` with the last segment popped
back into the buffer.  Returns (complete lines, trailing segment). -/
def splitNl2 : List Char → List (List Char) × List Char
  | [] => ([], [])
  | c :: rest =>
    let p := splitNl2 rest
    if c = '\n' then ([] :: p.1, p.2)
    else
      match p.1 with
      | [] => ([], c :: p.2)
      | l :: ls => ((c :: l) :: ls, p.2)

/-- How `splitNl2` results of two concatenated inputs combine: the first
input's trailing segment merges into the second input's first line (or its
trailing segment when the second input has no complete line). -/
def splitAppend (pa pb : List (List Char) × List Char) : List (List Char) × List Char :=
  match pb.1 with
  | [] => (pa.1, pa.2 ++ pb.2)
  | l :: ls => (pa.1 ++ (pa.2 ++ l) :: ls, pb.2)

/-- One chunk arrival of the read loop, tracking only the line stream:
append the chunk to the pending buffer, split, hold back the trailer. -/
def lineAcc (acc : List (List Char) × List Char) (chunk : List Char) :
    List (List Char) × List Char :=
  let p := splitNl2 (acc.2 ++ chunk)
  (acc.1 ++ p.1, p.2)

/-- The complete lines the read loop processes for a chunk sequence,
together with the final pending buffer. -/
def decodeLines (chunks : List (List Char)) : List (List Char) × List Char :=
  chunks.foldl lineAcc ([], [])

/-- The decoder's full event sequence for a chunk sequence: every complete
line through `parseStreamData`, plus the end-of-stream one-shot parse of a
non-blank trailing buffer (`useChat.js:210-211`). -/
def decodeEvents (chunks : List (List Char)) : List Json :=
  let p := decodeLines chunks
  p.1.filterMap parseStreamData ++
    (if trimStr p.2 = [] then [] else (parseStreamData p.2).toList)

/-- `updateAssistantMessage` (`useChat.js:237-250`): replace the last
message's text when the last message exists and has the assistant role; the
JS function's `messageId` parameter is unused by its body and dropped here. -/
def updateAssistantMessage : List Msg → List Char → List Msg
  | [], _ => []
  | [m], text => [if m.role = Role.assistant then { m with text := text } else m]
  | m :: m2 :: rest, text => m :: updateAssistantMessage (m2 :: rest) text

/-- The snapshot text of a `message` event (`useChat.js:191-195`):
`extractTextFromParts(message.parts || []) || message.text ||
message.content || currentText`. -/
def snapshotText (message : Json) (currentText : List Char) : List Char :=
  let t1 := extractTextFromParts
    (match fieldOf message ("parts".data) with
     | some v => if jsTruthyV v then v else Json.arr []
     | none => Json.arr [])
  if !t1.isEmpty then t1
  else if jsTruthy (fieldOf message ("text".data)) then
    jsToStr ((fieldOf message ("text".data)).getD Json.null)
  else if jsTruthy (fieldOf message ("content".data)) then
    jsToStr ((fieldOf message ("content".data)).getD Json.null)
  else currentText

/-- The message of the `error` frame's `throw new Error(data.error ||
'Unknown error')` (`useChat.js:201`). -/
def errMsgOf (data : Json) : List Char :=
  if jsTruthy (fieldOf data ("error".data)) then
    jsToStr ((fieldOf data ("error".data)).getD Json.null)
  else "Unknown error".data

/-- The body of the per-line `try` block (`useChat.js:179-202`): dispatch on
`data.type`.  The second component is the exception the branch throws (only
the `error` branch throws). -/
def applyData (sv : Session × StreamVars) (data : Json) :
    (Session × StreamVars) × Option (List Char) :=
  let s := sv.1
  let vars := sv.2
  if typeIs data ("start".data) then ((setStat s Status.streaming, vars), none)
  else if typeIs data ("text-start".data) then
    ((s, { currentText := [], textPartId := fieldOf data ("id".data) }), none)
  else if typeIs data ("text-delta".data) then
    if jsStrictEq (fieldOf data ("id".data)) vars.textPartId &&
        jsTruthy (fieldOf data ("delta".data)) then
      let ct := vars.currentText ++ jsToStr ((fieldOf data ("delta".data)).getD Json.null)
      (({ s with messages := updateAssistantMessage s.messages ct },
        { vars with currentText := ct }), none)
    else ((s, vars), none)
  else if typeIs data ("message".data) then
    if jsTruthy (fieldOf data ("message".data)) then
      let m := (fieldOf data ("message".data)).getD Json.null
      (({ s with messages := updateAssistantMessage s.messages (snapshotText m vars.currentText) },
        vars), none)
    else ((s, vars), none)
  else if typeIs data ("finish".data) then ((setStat s Status.ready, vars), none)
  else if typeIs data ("error".data) then ((s, vars), some (errMsgOf data))
  else ((s, vars), none)

/-- One complete line of the read loop (`useChat.js:174-206`): parse, skip
unparsable lines, apply the event; the `catch (parseError)` at the end of
the loop body swallows anything the `try` body throws. -/
def processLine (sv : Session × StreamVars) (line : List Char) : Session × StreamVars :=
  match parseStreamData line with
  | none => sv
  | some data => (applyData sv data).1

/-- All complete lines of the loop in order. -/
def processLines (sv : Session × StreamVars) (lines : List (List Char)) :
    Session × StreamVars :=
  lines.foldl processLine sv

/-- One chunk arrival with its line processing (`useChat.js:166-207`). -/
def chunkStep (acc : (Session × StreamVars) × List Char) (chunk : List Char) :
    (Session × StreamVars) × List Char :=
  let p := splitNl2 (acc.2 ++ chunk)
  (processLines acc.1 p.1, p.2)

/-- The read loop over a whole chunk sequence, from a fresh buffer and fresh
decoder variables. -/
def runChunks (s : Session) (chunks : List (List Char)) :
    (Session × StreamVars) × List Char :=
  chunks.foldl chunkStep ((s, varsInit), [])

/-- End-of-stream handling of a non-blank pending buffer
(`useChat.js:210-229`): parse it, and apply it only when it is a `message`
or `finish` event. -/
def processFinalBuffer (s : Session) (currentText : List Char) (buf : List Char) : Session :=
  if trimStr buf = [] then s
  else
    match parseStreamData buf with
    | none => s
    | some data =>
      if typeIs data ("message".data) then
        if jsTruthy (fieldOf data ("message".data)) then
          let ft := snapshotText ((fieldOf data ("message".data)).getD Json.null) currentText
          { s with messages := updateAssistantMessage s.messages ft }
        else s
      else if typeIs data ("finish".data) then setStat s Status.ready
      else s

/-- `processStreamResponse` run to completion on a chunk sequence: the read
loop, the final-buffer one-shot, then the unconditional `setStatus('ready')`
(`useChat.js:231`). -/
def processStreamResponse (s : Session) (chunks : List (List Char)) : Session :=
  let r := runChunks s chunks
  setStat (processFinalBuffer r.1.1 r.1.2.currentText r.2) Status.ready

/-- The session effects of a read loop cut off before completion (an abort
or a transport failure mid-stream): the fully processed lines took effect,
the final-buffer one-shot and the trailing `setStatus('ready')` did not. -/
def streamEffects (s : Session) (chunks : List (List Char)) : Session :=
  (runChunks s chunks).1.1

/-- Result of `validateInput` (`utils/index.js:121-133`). -/
structure ValidationResult where
  isValid : Bool
  error : Option (List Char)
deriving DecidableEq

/-- `validateInput`: empty (after trim) and over-length input are invalid. -/
def validateInput (input : List Char) : ValidationResult :=
  let trimmed := trimStr input
  if trimmed = [] then ⟨false, some ("Input cannot be empty".data)⟩
  else if trimmed.length > 4000 then
    ⟨false, some ("Input too long (max 4000 characters)".data)⟩
  else ⟨true, none⟩

/-- `formatError` (`utils/index.js:106-114`) applied to an `Error` object:
its message. -/
def formatError (e : List Char) : List Char := e

/-- The submit phase of `sendMessage` (`useChat.js:62-85`): append the user
message, set `streaming`, clear the error, append the assistant placeholder.
Returns the new state and the placeholder's id.  Message ids come from the
session's id supply, standing in for `generateMessageId`'s uniqueness. -/
def submitStep (s : Session) (content : List Char) : Session × Nat :=
  let userMessage : Msg := ⟨s.nextId, Role.user, content, none⟩
  let s1 : Session := { s with messages := s.messages ++ [userMessage], nextId := s.nextId + 1 }
  let s2 : Session := { setStat s1 Status.streaming with error := none }
  let assistantMessageId := s2.nextId
  let assistantMessage : Msg := ⟨assistantMessageId, Role.assistant, [], none⟩
  ({ s2 with messages := s2.messages ++ [assistantMessage], nextId := s2.nextId + 1 },
   assistantMessageId)

/-- Prefix text of the error message written into the failed assistant
message (`useChat.js:145`). -/
def errPrefixText : List Char := "抱歉，出现了错误: ".data

/-- The max-retries message update (`useChat.js:140-148`): if the last
message exists and carries the placeholder id, attach the error and replace
its text. -/
def attachErrorToLast : List Msg → Nat → List Char → List Msg
  | [], _, _ => []
  | [m], assistantMessageId, emsg =>
    [if m.id = assistantMessageId then
      { m with error := some emsg, text := errPrefixText ++ emsg }
     else m]
  | m :: m2 :: rest, assistantMessageId, emsg =>
    m :: attachErrorToLast (m2 :: rest) assistantMessageId emsg

/-- How one network attempt resolves, as seen by `sendMessage`'s
`try`/`catch`: a success delivers the whole chunk sequence; a failure (a
thrown fetch/HTTP error, or a reader failure mid-stream) delivers the chunks
read before the throw and the error message; an abort (`AbortError`)
delivers the chunks read before cancellation. -/
inductive Outcome where
  | success (chunks : List (List Char)) : Outcome
  | fail (emsg : List Char) (chunks : List (List Char)) : Outcome
  | aborted (chunks : List (List Char)) : Outcome

/-- `sendMessage` (`useChat.js:52-154`), driven by one `Outcome` per
attempt.  An empty outcome list models a request still in flight (the model
stops after the submit phase).  The second result component records the
retry delays scheduled, in order (`setTimeout(..., 1000 *
retryCountRef.current)` with the already-incremented counter). -/
def sendMessage (maxRetries : Nat) (content : List Char) :
    List Outcome → Session → Session × List Nat
  | [], s =>
    if (validateInput content).isValid = false then
      ({ s with error := (validateInput content).error }, [])
    else ((submitStep s content).1, [])
  | o :: rest, s =>
    if (validateInput content).isValid = false then
      ({ s with error := (validateInput content).error }, [])
    else
      let p := submitStep s content
      match o with
      | Outcome.success chunks =>
        ({ processStreamResponse p.1 chunks with retryCount := 0 }, [])
      | Outcome.aborted chunks =>
        (setStat (streamEffects p.1 chunks) Status.ready, [])
      | Outcome.fail emsg chunks =>
        let s2 := streamEffects p.1 chunks
        if s2.retryCount < maxRetries then
          let kept := s2.messages.filter (fun m => m.id != p.2)
          let s3 : Session := { s2 with retryCount := s2.retryCount + 1, messages := kept }
          let r := sendMessage maxRetries content rest s3
          (r.1, 1000 * s3.retryCount :: r.2)
        else
          let formatted := formatError emsg
          let s3 := setStat { s2 with error := some formatted } Status.ready
          ({ s3 with messages := attachErrorToLast s3.messages p.2 formatted }, [])

/-- Whether the input area's submit handler calls `onSendMessage`
(`components/InputArea/InputArea.jsx:82`): only when the trimmed value is
non-empty and the component is neither disabled nor loading. -/
def handleSubmitFires (value : List Char) (disabled isLoading : Bool) : Bool :=
  !(trimStr value).isEmpty && !disabled && !isLoading

/-- `isLoading` as `useChat` exposes it (`useChat.js:277`). -/
def isLoadingOf (s : Session) : Bool :=
  s.status = Status.streaming

/-- A wire frame as the server emits it.  `start`, `message`, `textStart`,
`textDelta` and `textEnd` are `0:`-tagged, `finish` is the `d:` frame and
`error` the `e:` frame. -/
inductive Frame where
  | start : Frame
  | message (mid : List Char) (parts : List (List Char)) : Frame
  | textStart (pid : List Char) : Frame
  | textDelta (pid : List Char) (delta : List Char) : Frame
  | textEnd (pid : List Char) : Frame
  | finish : Frame
  | error (e : List Char) : Frame
deriving DecidableEq

/-- The delta loop of `AppController.getHello` (`app.service.ts:111-127`):
for each upstream fragment, skip it when empty, otherwise accumulate it into
`fullText` and emit a `text-delta` frame.  Returns the final `fullText` and
the emitted frames. -/
def deltaLoop (textPartId : List Char) :
    List (List Char) → List Char → List Char × List Frame
  | [], fullText => (fullText, [])
  | delta :: ds, fullText =>
    if delta = [] then deltaLoop textPartId ds fullText
    else
      let r := deltaLoop textPartId ds (fullText ++ delta)
      (r.1, Frame.textDelta textPartId delta :: r.2)

/-- The frames of one successful turn of `AppController.getHello`
(`app.service.ts:85-151`), given the upstream fragment sequence (each
fragment already extracted as `chunk.choices[0]?.delta?.content || ''`). -/
def getHelloFrames (messageId : List Char) (deltas : List (List Char)) : List Frame :=
  let textPartId := "text-".data ++ messageId
  let r := deltaLoop textPartId deltas []
  [Frame.start, Frame.message messageId [], Frame.textStart textPartId] ++
    r.2 ++
    [Frame.textEnd textPartId, Frame.message messageId [r.1], Frame.finish]

/-- A fresh session before any submit. -/
def freshSession : Session := ⟨[], Status.ready, [], none, 0, 0⟩

/-- A session currently streaming (one request in flight elsewhere). -/
def streamingSession : Session := ⟨[], Status.streaming, [], none, 0, 0⟩

/-- Concrete user input used by concrete runs. -/
def hiText : List Char := "hi".data

/-- A response chunk whose middle frame is `e:` tagged: a complete `start`
frame, an explicit `e:error` frame, then a `finish` frame. -/
def errorFrameChunk : List Char :=
  ("0:\x7b\"type\":\"start\"\x7d\ne:\x7b\"error\":\"boom\"\x7d\nd:\x7b\"type\":\"finish\"\x7d\n").data

/-- Four consecutive transport failures (enough to exhaust `maxRetries = 3`,
the configured `API_CONFIG.MAX_RETRIES`). -/
def failsFour : List Outcome :=
  [Outcome.fail ("boom".data) [], Outcome.fail ("boom".data) [],
   Outcome.fail ("boom".data) [], Outcome.fail ("boom".data) []]

/-- A session holding only the assistant placeholder, mid-stream. -/
def sessionMid : Session := ⟨[⟨0, Role.assistant, [], none⟩], Status.streaming, [], none, 0, 1⟩

/-- Decoder variables after a `text-start` with id `"t"`. -/
def varsMid : StreamVars := ⟨[], some (Json.str ("t".data))⟩

/-- A complete `text-delta` line for part id `"t"`. -/
def deltaLine : List Char :=
  ("0:\x7b\"type\":\"text-delta\",\"id\":\"t\",\"delta\":\"hi\"\x7d").data

/-- A complete `start` line. -/
def startLine : List Char := ("0:\x7b\"type\":\"start\"\x7d").data

/-- A well-tagged line whose payload is not valid JSON. -/
def badJsonLine : List Char := ("0:\x7bbad").data

/-- One whole-frame chunking of a small response. -/
def chunksWhole : List (List Char) := [("0:\x7b\"type\":\"start\"\x7d\n").data]

/-- The same bytes split mid-frame into two chunks. -/
def chunksSplit : List (List Char) := [("0:\x7b\"ty").data, ("pe\":\"start\"\x7d\n").data]

/-- What stream-event processing can never change about a session: the
session error, the retry counter, the id supply, every message except the
last, every message's id/role/error shape; and it never records the
`error` status. -/
def sessPreserved (old new : Session) : Prop :=
  new.error = old.error ∧ new.retryCount = old.retryCount ∧ new.nextId = old.nextId ∧
  new.messages.dropLast = old.messages.dropLast ∧
  new.messages.map msgShape = old.messages.map msgShape ∧
  (Status.error ∈ new.trace → Status.error ∈ old.trace)

/-- The state from which the code resubmits after a below-budget failure:
stream effects applied, the retry counter incremented, and the last message
(the placeholder) removed. -/
def retryState (s : Session) (content : List Char) (cs : List (List Char)) : Session :=
  let s2 := streamEffects (submitStep s content).1 cs
  { s2 with retryCount := s2.retryCount + 1, messages := s2.messages.dropLast }

/-- Whether the pending buffer parses to an event of the given type. -/
def bufTypeIs (buf tag : List Char) : Bool :=
  match parseStreamData buf with
  | some d => typeIs d tag
  | none => false

/-- The state from which the code resubmits after a below-budget failure,
in the source's own terms: stream effects applied, retry counter
incremented, messages filtered by the placeholder id. -/
def retryStateF (s : Session) (content : List Char) (cs : List (List Char)) : Session :=
  let s2 := streamEffects (submitStep s content).1 cs
  let kept := s2.messages.filter (fun m => m.id != (submitStep s content).2)
  { s2 with retryCount := s2.retryCount + 1, messages := kept }

/-! Theorems. -/

/-- The split of a concatenation combines the two splits. -/
theorem splitNl2_append (a b : List Char) :
    splitNl2 (a ++ b) = splitAppend (splitNl2 a) (splitNl2 b) := by
  induction a with
  | nil =>
    rcases h : (splitNl2 b) with ⟨ls, tr⟩
    cases ls <;> simp [splitAppend, h, splitNl2]
  | cons c a ih =>
    rcases h : (splitNl2 a) with ⟨ls, tr⟩
    rcases hb : (splitNl2 b) with ⟨lsb, trb⟩
    rw [h, hb] at ih
    show splitNl2 (c :: (a ++ b)) = _
    simp only [splitNl2, ih]
    by_cases hc : c = '\n'
    · cases lsb <;> cases ls <;> simp [splitAppend, hc, h, hb]
    · cases ls <;> cases lsb <;> simp [splitAppend, hc, h, hb]

/-- A newline-free input is all trailing buffer. -/
theorem splitNl2_no_newline (s : List Char) (h : '\n' ∉ s) :
    splitNl2 s = ([], s) := by
  induction s with
  | nil => rfl
  | cons c s ih =>
    have hc : c ≠ '\n' := fun hcc => h (hcc ▸ List.mem_cons_self c s)
    have hs : '\n' ∉ s := fun hm => h (List.mem_cons_of_mem c hm)
    simp [splitNl2, hc, ih hs]

/-- The trailing buffer returned by the split never contains a newline. -/
theorem splitNl2_snd_no_newline (s : List Char) : '\n' ∉ (splitNl2 s).2 := by
  induction s with
  | nil => simp [splitNl2]
  | cons c s ih =>
    by_cases hc : c = '\n'
    · simpa [splitNl2, hc] using ih
    · rcases h : (splitNl2 s) with ⟨ls, tr⟩
      rw [h] at ih
      cases ls <;> simp_all [splitNl2, hc, h, eq_comm]

/-- The buffering loop over any chunk sequence produces exactly the split of
the concatenated bytes, regardless of chunk boundaries. -/
theorem foldl_lineAcc (chunks : List (List Char)) (acc : List (List Char) × List Char)
    (h : '\n' ∉ acc.2) :
    chunks.foldl lineAcc acc =
      (acc.1 ++ (splitNl2 (acc.2 ++ chunks.flatten)).1, (splitNl2 (acc.2 ++ chunks.flatten)).2) := by
  induction chunks generalizing acc with
  | nil =>
    simp [splitNl2_no_newline acc.2 h]
  | cons chunk rest ih =>
    rw [List.foldl_cons, ih (lineAcc acc chunk) (splitNl2_snd_no_newline _)]
    simp only [lineAcc, List.flatten_cons]
    rw [← List.append_assoc, splitNl2_append (acc.2 ++ chunk) rest.flatten]
    rcases hb : splitNl2 (acc.2 ++ chunk) with ⟨ls, tr⟩
    rcases hr : splitNl2 rest.flatten with ⟨lsr, trr⟩
    have htr : '\n' ∉ tr := by
      have := splitNl2_snd_no_newline (acc.2 ++ chunk)
      rw [hb] at this; exact this
    rw [splitNl2_append tr rest.flatten, splitNl2_no_newline tr htr, hr]
    cases lsr <;> simp [splitAppend]

/-- The complete-line stream of the buffering loop depends only on the byte
concatenation. -/
theorem decodeLines_eq_flatten (chunks : List (List Char)) :
    decodeLines chunks = splitNl2 chunks.flatten := by
  have h := foldl_lineAcc chunks ([], []) (by simp)
  simpa [decodeLines] using h

/-- C2: split-invariance of the decoder.  For any two chunkings of the same
newline-terminated byte sequence, the buffering loop (append chunk, split on
newline, hold back the trailing segment) composed with `parseStreamData`
yields the identical event sequence in the identical order. -/
theorem c2_decoder_split_invariance (chunks1 chunks2 : List (List Char))
    (h1 : chunks1.flatten = chunks2.flatten)
    (h2 : chunks1.flatten.getLast? = some '\n') :
    decodeEvents chunks1 = decodeEvents chunks2 := by
  unfold decodeEvents
  rw [decodeLines_eq_flatten, decodeLines_eq_flatten, h1]

/-- Witness for C2: a whole-frame chunking and a mid-frame split of the same
bytes produce the same events. -/
theorem c2_decoder_split_invariance_w :
    chunksWhole.flatten = chunksSplit.flatten ∧
    chunksWhole.flatten.getLast? = some '\n' ∧
    decodeEvents chunksWhole = decodeEvents chunksSplit :=
  ⟨by decide, by decide,
   c2_decoder_split_invariance chunksWhole chunksSplit (by decide) (by decide)⟩

/-- Processing a line that parses to nothing leaves the loop state alone. -/
theorem processLine_none (sv : Session × StreamVars) (line : List Char)
    (h : parseStreamData line = none) : processLine sv line = sv := by
  simp [processLine, h]

/-- C6: fault isolation of the decoder.  A line that does not carry one of
the tags `0:`, `d:`, `e:`, or whose payload after the tag is not valid JSON,
yields no event, and the processing loop behaves as if the line were absent,
so every subsequent valid line still produces its event. -/
theorem c6_fault_isolation (sv : Session × StreamVars)
    (pre post : List (List Char)) (line : List Char)
    (h : tagPayload line = none ∨
      ∃ payload, tagPayload line = some payload ∧ jsonParse payload = none) :
    parseStreamData line = none ∧
    processLines sv (pre ++ line :: post) = processLines sv (pre ++ post) ∧
    (pre ++ line :: post).filterMap parseStreamData =
      (pre ++ post).filterMap parseStreamData := by
  have hp : parseStreamData line = none := by
    unfold parseStreamData
    rcases h with h | ⟨payload, h, hj⟩
    · by_cases ht : trimStr line = [] <;> simp [h, ht]
    · by_cases ht : trimStr line = [] <;> simp [h, ht, hj]
  refine ⟨hp, ?_, ?_⟩
  · unfold processLines
    rw [List.foldl_append, List.foldl_append, List.foldl_cons, processLine_none _ _ hp]
  · rw [List.filterMap_append, List.filterMap_append, List.filterMap_cons, hp]

/-- Witness for C6: the well-tagged line `0:{bad` has an unparsable payload,
produces no event, and does not disturb the processing of a following valid
`start` line. -/
theorem c6_fault_isolation_w :
    (∃ payload, tagPayload badJsonLine = some payload ∧ jsonParse payload = none) ∧
    parseStreamData badJsonLine = none ∧
    processLines (freshSession, varsInit) ([] ++ badJsonLine :: [startLine]) =
      processLines (freshSession, varsInit) ([] ++ [startLine]) ∧
    ([] ++ badJsonLine :: [startLine]).filterMap parseStreamData =
      ([] ++ [startLine]).filterMap parseStreamData :=
  ⟨⟨("\x7bbad").data, rfl, rfl⟩,
   c6_fault_isolation (freshSession, varsInit) [] [startLine] badJsonLine
     (Or.inr ⟨("\x7bbad").data, rfl, rfl⟩)⟩

/-- The delta loop emits one `text-delta` per non-empty fragment, in order,
and accumulates exactly the non-empty fragments into `fullText`. -/
theorem deltaLoop_spec (tid : List Char) (deltas : List (List Char)) (acc : List Char) :
    deltaLoop tid deltas acc =
      (acc ++ (deltas.filter (fun d => !d.isEmpty)).flatten,
       (deltas.filter (fun d => !d.isEmpty)).map (Frame.textDelta tid)) := by
  induction deltas generalizing acc with
  | nil => simp [deltaLoop]
  | cons d ds ih =>
    by_cases hd : d = []
    · simp [deltaLoop, hd, ih]
    · simp [deltaLoop, hd, ih (acc ++ d), List.isEmpty_iff]

/-- C3: for every successful turn the framer emits exactly the canonical
frame sequence — `start`, `message` with empty parts, `text-start`, one
`text-delta` per non-empty upstream fragment in emission order, `text-end`,
a final `message` whose single text part is the concatenation of all emitted
deltas (the `fullText` accumulator), then `finish` — and empty fragments
produce no delta frame. -/
theorem c3_framer_canonical_order (messageId : List Char) (deltas : List (List Char)) :
    getHelloFrames messageId deltas =
      [Frame.start, Frame.message messageId [], Frame.textStart ("text-".data ++ messageId)] ++
      (deltas.filter (fun d => !d.isEmpty)).map (Frame.textDelta ("text-".data ++ messageId)) ++
      [Frame.textEnd ("text-".data ++ messageId),
       Frame.message messageId [(deltas.filter (fun d => !d.isEmpty)).flatten],
       Frame.finish] := by
  simp [getHelloFrames, deltaLoop_spec]

/-- C1: an `e:error` frame does not fail the attempt.  The `throw` in the
`error` branch of the event loop is caught by the same loop body's
`catch (parseError)`, so a run whose stream carries an explicit `e:error`
frame completes as a success: no retry is scheduled, the retry counter is
reset to 0, no error is recorded, and status ends `ready` — the code
contradicts the spec's retryable-`e:error` design. -/
theorem c1_error_frame_swallowed :
    (sendMessage 3 hiText [Outcome.success [errorFrameChunk]] freshSession).1.error = none ∧
    (sendMessage 3 hiText [Outcome.success [errorFrameChunk]] freshSession).1.retryCount = 0 ∧
    (sendMessage 3 hiText [Outcome.success [errorFrameChunk]] freshSession).1.status =
      Status.ready ∧
    (sendMessage 3 hiText [Outcome.success [errorFrameChunk]] freshSession).2 = [] := by
  refine ⟨?_, ?_, ?_, ?_⟩ <;> decide

/-- Counterexample for C4: a failed attempt below the retry budget resubmits
by re-running the whole submit path, which appends a second copy of the user
message — after one failure and one successful retry of the input `hi`, the
history holds two user messages with that text. -/
theorem c4_retry_duplicates_user_cx :
    ((sendMessage 3 hiText [Outcome.fail ("x".data) [], Outcome.success []]
        freshSession).1.messages.countP
      (fun m => decide (m.role = Role.user ∧ m.text = hiText))) = 2 := by
  decide

/-- Counterexample for C5: a submit while the session status is `streaming`
is not a no-op — `sendMessage` has no streaming guard, so it appends the
user message and a fresh placeholder and changes the session state. -/
theorem c5_submit_while_streaming_cx :
    (sendMessage 3 hiText [Outcome.success []] streamingSession).1.messages.length = 2 ∧
    (sendMessage 3 hiText [Outcome.success []] streamingSession).1 ≠ streamingSession := by
  refine ⟨?_, ?_⟩ <;> decide

/-- Counterexample for C7: after `maxRetries` exhausted failures the status
is never set to `error` — the recorded `setStatus` trace of a run with four
consecutive failures against `maxRetries = 3` contains only `streaming` and
`ready`. -/
theorem c7_status_never_error_cx :
    (sendMessage 3 hiText failsFour freshSession).1.trace =
      [Status.streaming, Status.streaming, Status.streaming, Status.streaming,
       Status.ready] ∧
    Status.error ∉ (sendMessage 3 hiText failsFour freshSession).1.trace := by
  refine ⟨?_, ?_⟩ <;> decide

/-- Counterexample for C9: a `text-delta` arriving as the unterminated final
buffer does not have the effect a newline-terminated line of the same
content has — as a complete line it appends the delta to the placeholder,
as the final buffer it is ignored. -/
theorem c9_final_buffer_cx :
    processFinalBuffer sessionMid varsMid.currentText deltaLine ≠
      (processLine (sessionMid, varsMid) deltaLine).1 := by
  decide

theorem sessPreserved_refl (s : Session) : sessPreserved s s :=
  ⟨rfl, rfl, rfl, rfl, rfl, id⟩

theorem sessPreserved_trans {a b c : Session}
    (h1 : sessPreserved a b) (h2 : sessPreserved b c) : sessPreserved a c :=
  ⟨h2.1.trans h1.1, h2.2.1.trans h1.2.1, h2.2.2.1.trans h1.2.2.1,
   h2.2.2.2.1.trans h1.2.2.2.1, h2.2.2.2.2.1.trans h1.2.2.2.2.1,
   fun hm => h1.2.2.2.2.2 (h2.2.2.2.2.2 hm)⟩

theorem setStat_preserved (s : Session) (st : Status) (h : st ≠ Status.error) :
    sessPreserved s (setStat s st) := by
  refine ⟨rfl, rfl, rfl, rfl, rfl, fun hm => ?_⟩
  simp only [setStat, List.mem_append, List.mem_singleton] at hm
  rcases hm with hm | hm
  · exact hm
  · exact absurd hm.symm h

/-- `updateAssistantMessage` on a non-empty list rewrites only the last
element. -/
theorem updAsst_eq : ∀ (ms : List Msg) (t : List Char) (m : Msg), ms.getLast? = some m →
    updateAssistantMessage ms t =
      ms.dropLast ++ [if m.role = Role.assistant then { m with text := t } else m]
  | [], _, _, h => by simp at h
  | [m0], t, m, h => by
    simp only [List.getLast?_singleton, Option.some.injEq] at h
    subst h
    simp [updateAssistantMessage]
  | m0 :: m1 :: rest, t, m, h => by
    rw [List.getLast?_cons_cons] at h
    simp only [updateAssistantMessage, updAsst_eq (m1 :: rest) t m h, List.dropLast_cons₂]
    simp

theorem updAsst_dropLast (ms : List Msg) (t : List Char) :
    (updateAssistantMessage ms t).dropLast = ms.dropLast := by
  rcases hm : ms.getLast? with _ | m
  · rw [List.getLast?_eq_none_iff] at hm
    subst hm; rfl
  · rw [updAsst_eq ms t m hm, List.dropLast_concat,
      ← List.dropLast_append_getLast? m hm, List.dropLast_concat]

theorem updAsst_shape (ms : List Msg) (t : List Char) :
    (updateAssistantMessage ms t).map msgShape = ms.map msgShape := by
  rcases hm : ms.getLast? with _ | m
  · rw [List.getLast?_eq_none_iff] at hm
    subst hm; rfl
  · rw [updAsst_eq ms t m hm]
    conv_rhs => rw [← List.dropLast_append_getLast? m hm]
    rw [List.map_append, List.map_append]
    by_cases hr : m.role = Role.assistant <;> simp [hr, msgShape]

theorem updMsgs_preserved (s : Session) (t : List Char) :
    sessPreserved s { s with messages := updateAssistantMessage s.messages t } :=
  ⟨rfl, rfl, rfl, updAsst_dropLast s.messages t, updAsst_shape s.messages t, id⟩

theorem applyData_preserved (sv : Session × StreamVars) (d : Json) :
    sessPreserved sv.1 ((applyData sv d).1).1 := by
  unfold applyData
  dsimp only
  split_ifs <;>
    first
      | exact setStat_preserved _ _ (by simp)
      | exact updMsgs_preserved _ _
      | exact sessPreserved_refl _

theorem processLine_preserved (sv : Session × StreamVars) (line : List Char) :
    sessPreserved sv.1 (processLine sv line).1 := by
  unfold processLine
  rcases h : parseStreamData line with _ | d
  · exact sessPreserved_refl _
  · exact applyData_preserved sv d

theorem processLines_preserved (lines : List (List Char)) (sv : Session × StreamVars) :
    sessPreserved sv.1 (processLines sv lines).1 := by
  induction lines generalizing sv with
  | nil => exact sessPreserved_refl _
  | cons l ls ih =>
    unfold processLines
    rw [List.foldl_cons]
    exact sessPreserved_trans (processLine_preserved sv l) (ih (processLine sv l))

theorem foldl_chunkStep_preserved (chunks : List (List Char))
    (acc : (Session × StreamVars) × List Char) :
    sessPreserved acc.1.1 ((chunks.foldl chunkStep acc).1.1) := by
  induction chunks generalizing acc with
  | nil => exact sessPreserved_refl _
  | cons chunk rest ih =>
    rw [List.foldl_cons]
    exact sessPreserved_trans (processLines_preserved _ acc.1) (ih (chunkStep acc chunk))

theorem streamEffects_preserved (s : Session) (chunks : List (List Char)) :
    sessPreserved s (streamEffects s chunks) :=
  foldl_chunkStep_preserved chunks ((s, varsInit), [])

theorem processFinalBuffer_preserved (s : Session) (currentText buf : List Char) :
    sessPreserved s (processFinalBuffer s currentText buf) := by
  unfold processFinalBuffer
  rcases h : parseStreamData buf with _ | d <;>
    dsimp only <;> split_ifs <;>
      first
        | exact setStat_preserved _ _ (by simp)
        | exact updMsgs_preserved _ _
        | exact sessPreserved_refl _

theorem processStreamResponse_preserved (s : Session) (chunks : List (List Char)) :
    sessPreserved s (processStreamResponse s chunks) := by
  unfold processStreamResponse
  exact sessPreserved_trans (streamEffects_preserved s chunks)
    (sessPreserved_trans (processFinalBuffer_preserved _ _ _)
      (setStat_preserved _ _ (by simp)))

theorem processStreamResponse_status (s : Session) (chunks : List (List Char)) :
    (processStreamResponse s chunks).status = Status.ready := by
  simp [processStreamResponse, setStat]

theorem map_id_of_shape {a b : List Msg} (h : a.map msgShape = b.map msgShape) :
    a.map Msg.id = b.map Msg.id := by
  have h2 := congrArg (List.map (fun t : Nat × Role × Option (List Char) => t.1)) h
  simpa [List.map_map, Function.comp_def, msgShape] using h2

theorem map_error_of_shape {a b : List Msg} (h : a.map msgShape = b.map msgShape) :
    a.map Msg.error = b.map Msg.error := by
  have h2 := congrArg (List.map (fun t : Nat × Role × Option (List Char) => t.2.2)) h
  simpa [List.map_map, Function.comp_def, msgShape] using h2

theorem length_of_shape {a b : List Msg} (h : a.map msgShape = b.map msgShape) :
    a.length = b.length := by
  have h2 := congrArg List.length h
  simpa using h2

theorem errors_none_of_shape {a b : List Msg} (h : a.map msgShape = b.map msgShape)
    (hb : ∀ m ∈ b, m.error = none) : ∀ m ∈ a, m.error = none := by
  intro m hm
  have h1 : m.error ∈ a.map Msg.error := List.mem_map_of_mem Msg.error hm
  rw [map_error_of_shape h] at h1
  rcases List.mem_map.1 h1 with ⟨m2, hm2, he⟩
  rw [← he, hb m2 hm2]

/-- The submit phase in explicit form. -/
theorem submitStep_facts (s : Session) (content : List Char) :
    (submitStep s content).1.messages =
      s.messages ++ [⟨s.nextId, Role.user, content, none⟩,
        ⟨s.nextId + 1, Role.assistant, [], none⟩] ∧
    (submitStep s content).2 = s.nextId + 1 ∧
    (submitStep s content).1.retryCount = s.retryCount ∧
    (submitStep s content).1.error = none ∧
    (submitStep s content).1.trace = s.trace ++ [Status.streaming] ∧
    (submitStep s content).1.status = Status.streaming ∧
    (submitStep s content).1.nextId = s.nextId + 2 := by
  simp [submitStep, setStat]

/-- Attaching the error to the last message marks exactly one message when
the last message carries the expected id and no message was marked before. -/
theorem attachErrorToLast_countP : ∀ (ms : List Msg) (aId : Nat) (e : List Char),
    (∀ m ∈ ms, m.error = none) → (ms.map Msg.id).getLast? = some aId →
    (attachErrorToLast ms aId e).countP (fun m => m.error.isSome) = 1
  | [], _, _, _, h => by simp at h
  | [m], aId, e, _, h => by
    simp only [List.map_cons, List.map_nil, List.getLast?_singleton, Option.some.injEq] at h
    simp [attachErrorToLast, h]
  | m :: m2 :: rest, aId, e, hn, h => by
    have h2 : ((m2 :: rest).map Msg.id).getLast? = some aId := by
      simpa [List.getLast?_cons_cons] using h
    have hn2 : ∀ x ∈ m2 :: rest, x.error = none := fun x hx => hn x (List.mem_cons_of_mem _ hx)
    have hm : m.error = none := hn m (List.mem_cons_self _ _)
    simp [attachErrorToLast, List.countP_cons, hm,
      attachErrorToLast_countP (m2 :: rest) aId e hn2 h2]

/-- Filtering out the last id removes exactly the last element when no
earlier element carries that id. -/
theorem filter_ne_id_dropLast : ∀ (ms : List Msg) (k : Nat),
    (ms.map Msg.id).getLast? = some k → (∀ i ∈ (ms.map Msg.id).dropLast, i ≠ k) →
    ms.filter (fun m => m.id != k) = ms.dropLast
  | [], _, h, _ => by simp at h
  | [m], k, h, _ => by
    simp only [List.map_cons, List.map_nil, List.getLast?_singleton, Option.some.injEq] at h
    simp [List.filter, h]
  | m :: m2 :: rest, k, h, hd => by
    have h2 : ((m2 :: rest).map Msg.id).getLast? = some k := by
      simpa [List.getLast?_cons_cons] using h
    have hm : m.id ≠ k := hd m.id (by simp [List.dropLast_cons₂])
    have hd2 : ∀ i ∈ ((m2 :: rest).map Msg.id).dropLast, i ≠ k := by
      intro i hi
      exact hd i (by simp [List.dropLast_cons₂]; right; exact hi)
    simp [List.filter_cons, hm, filter_ne_id_dropLast (m2 :: rest) k h2 hd2,
      List.dropLast_cons₂]

/-- C10: when the transport reports completion without any `d:finish` or
`e:error` frame having arrived, the client still treats the turn as a
success — `processStreamResponse` returns normally, sets status `ready`, the
retry counter is reset to 0, no error is recorded and no retry is scheduled,
so a truncated response is indistinguishable from a completed one. -/
theorem c10_truncated_stream_success (mr : Nat) (content : List Char)
    (chunks : List (List Char)) (rest : List Outcome) (s : Session)
    (h1 : (validateInput content).isValid = true)
    (h2 : ∀ ev ∈ decodeEvents chunks,
      typeIs ev ("finish".data) = false ∧ typeIs ev ("error".data) = false) :
    (sendMessage mr content (Outcome.success chunks :: rest) s).1.status = Status.ready ∧
    (sendMessage mr content (Outcome.success chunks :: rest) s).1.retryCount = 0 ∧
    (sendMessage mr content (Outcome.success chunks :: rest) s).1.error = none ∧
    (sendMessage mr content (Outcome.success chunks :: rest) s).2 = [] := by
  have he : sendMessage mr content (Outcome.success chunks :: rest) s =
      ({ processStreamResponse (submitStep s content).1 chunks with retryCount := 0 }, []) := by
    simp [sendMessage, h1]
  rw [he]
  refine ⟨?_, rfl, ?_, rfl⟩
  · simpa using processStreamResponse_status (submitStep s content).1 chunks
  · have hp := (processStreamResponse_preserved (submitStep s content).1 chunks).1
    have hs := (submitStep_facts s content).2.2.2.1
    simpa using hp.trans hs

/-- C8: cancelling an in-flight request ends the turn with status `ready`,
no error, no retry (the retry counter is untouched and no delay is
scheduled), and the messages keep whatever the processed events had
accumulated — in particular the placeholder assistant message stays (no
rollback). -/
theorem c8_cancel_semantics (mr : Nat) (content : List Char)
    (chunks : List (List Char)) (rest : List Outcome) (s : Session)
    (h1 : (validateInput content).isValid = true) :
    sendMessage mr content (Outcome.aborted chunks :: rest) s =
      (setStat (streamEffects (submitStep s content).1 chunks) Status.ready, []) ∧
    (sendMessage mr content (Outcome.aborted chunks :: rest) s).1.status = Status.ready ∧
    (sendMessage mr content (Outcome.aborted chunks :: rest) s).1.error = none ∧
    (sendMessage mr content (Outcome.aborted chunks :: rest) s).1.retryCount = s.retryCount ∧
    (sendMessage mr content (Outcome.aborted chunks :: rest) s).2 = [] ∧
    (sendMessage mr content (Outcome.aborted chunks :: rest) s).1.messages.length =
      s.messages.length + 2 := by
  have he : sendMessage mr content (Outcome.aborted chunks :: rest) s =
      (setStat (streamEffects (submitStep s content).1 chunks) Status.ready, []) := by
    simp [sendMessage, h1]
  have hp := streamEffects_preserved (submitStep s content).1 chunks
  have hsub := submitStep_facts s content
  refine ⟨he, ?_, ?_, ?_, ?_, ?_⟩ <;> rw [he]
  · simp [setStat]
  · simpa [setStat] using hp.1.trans hsub.2.2.2.1
  · simpa [setStat] using hp.2.1.trans hsub.2.2.1
  · have hlen := length_of_shape hp.2.2.2.2.1
    rw [hsub.1] at hlen
    simpa [setStat] using hlen

/-- Witness for C10: a stream holding only a `start` frame (no `finish`, no
`error`) still ends as a success with status `ready`. -/
theorem c10_truncated_stream_success_w :
    (validateInput hiText).isValid = true ∧
    (∀ ev ∈ decodeEvents chunksWhole,
      typeIs ev ("finish".data) = false ∧ typeIs ev ("error".data) = false) ∧
    (sendMessage 3 hiText [Outcome.success chunksWhole] freshSession).1.status =
      Status.ready ∧
    (sendMessage 3 hiText [Outcome.success chunksWhole] freshSession).1.retryCount = 0 :=
  ⟨by decide, by decide,
   (c10_truncated_stream_success 3 hiText chunksWhole [] freshSession (by decide)
      (by decide)).1,
   (c10_truncated_stream_success 3 hiText chunksWhole [] freshSession (by decide)
      (by decide)).2.1⟩

/-- Witness for C8: aborting a fresh request leaves status `ready`, no
error, and both submitted messages in place. -/
theorem c8_cancel_semantics_w :
    (validateInput hiText).isValid = true ∧
    (sendMessage 3 hiText [Outcome.aborted []] freshSession).1.status = Status.ready ∧
    (sendMessage 3 hiText [Outcome.aborted []] freshSession).1.error = none ∧
    (sendMessage 3 hiText [Outcome.aborted []] freshSession).1.messages.length =
      freshSession.messages.length + 2 :=
  ⟨by decide,
   (c8_cancel_semantics 3 hiText [] [] freshSession (by decide)).2.1,
   (c8_cancel_semantics 3 hiText [] [] freshSession (by decide)).2.2.1,
   (c8_cancel_semantics 3 hiText [] [] freshSession (by decide)).2.2.2.2.2⟩

/-- The submit phase ignores the incoming status (it overwrites it). -/
theorem submitStep_status_irrel (s : Session) (content : List Char) (a b : Status) :
    submitStep { s with status := a } content = submitStep { s with status := b } content := by
  cases s
  simp [submitStep, setStat]

/-- C5 (amended): `sendMessage` has no concurrency guard — a submit while
the session is `streaming` proceeds exactly as a submit while `ready` (for
valid input the two runs are equal states); the only double-submit
protection lives in the UI layer, whose input handler never fires while
`isLoading`. -/
theorem c5_no_streaming_guard_amended (value : List Char) (disabled : Bool)
    (mr : Nat) (content : List Char) (outs : List Outcome) (s : Session)
    (h1 : (validateInput content).isValid = true) :
    handleSubmitFires value disabled true = false ∧
    sendMessage mr content outs { s with status := Status.streaming } =
      sendMessage mr content outs { s with status := Status.ready } := by
  have hsub := submitStep_status_irrel s content Status.streaming Status.ready
  refine ⟨by simp [handleSubmitFires], ?_⟩
  cases outs with
  | nil => simp [sendMessage, h1, hsub]
  | cons o rest => cases o <;> simp [sendMessage, h1, hsub]

/-- Witness for C5 (amended): with valid input `hi`, a loading input area
never fires, and submitting from a streaming session equals submitting from
a ready one. -/
theorem c5_no_streaming_guard_amended_w :
    (validateInput hiText).isValid = true ∧
    handleSubmitFires ("x".data) false true = false ∧
    sendMessage 3 hiText [Outcome.success []] { freshSession with status := Status.streaming } =
      sendMessage 3 hiText [Outcome.success []] { freshSession with status := Status.ready } :=
  ⟨by decide,
   (c5_no_streaming_guard_amended ("x".data) false 3 hiText [Outcome.success []]
      freshSession (by decide)).1,
   (c5_no_streaming_guard_amended ("x".data) false 3 hiText [Outcome.success []]
      freshSession (by decide)).2⟩

/-- C4 (amended): when an attempt fails with `attempt < maxRetries`, exactly
the placeholder assistant message is removed (the filter by its id removes
only the last message), the attempt counter is incremented, the scheduled
delay is `(attempt + 1) * baseDelay`, and the resubmission re-runs the full
submit path with the same original text — which appends a second copy of the
user message, so after the retry's submit phase the history holds one more
user copy than before the failure. -/
theorem c4_retry_step_amended (mr : Nat) (content emsg : List Char)
    (cs : List (List Char)) (rest : List Outcome) (s : Session)
    (h1 : (validateInput content).isValid = true)
    (h2 : s.retryCount < mr)
    (h3 : ∀ m ∈ s.messages, m.id < s.nextId) :
    sendMessage mr content (Outcome.fail emsg cs :: rest) s =
      ((sendMessage mr content rest (retryState s content cs)).1,
       1000 * (s.retryCount + 1) :: (sendMessage mr content rest (retryState s content cs)).2) ∧
    (retryState s content cs).messages =
      s.messages ++ [⟨s.nextId, Role.user, content, none⟩] ∧
    (submitStep (retryState s content cs) content).1.messages.countP
        (fun m => decide (m.role = Role.user ∧ m.text = content)) =
      s.messages.countP (fun m => decide (m.role = Role.user ∧ m.text = content)) + 2 := by
  have hsub := submitStep_facts s content
  have hp := streamEffects_preserved (submitStep s content).1 cs
  have hs2rc : (streamEffects (submitStep s content).1 cs).retryCount = s.retryCount :=
    hp.2.1.trans hsub.2.2.1
  have hdrop : (streamEffects (submitStep s content).1 cs).messages.dropLast =
      s.messages ++ [⟨s.nextId, Role.user, content, none⟩] := by
    rw [hp.2.2.2.1, hsub.1]
    rw [show s.messages ++ [(⟨s.nextId, Role.user, content, none⟩ : Msg),
        ⟨s.nextId + 1, Role.assistant, [], none⟩] =
      (s.messages ++ [⟨s.nextId, Role.user, content, none⟩]) ++
        [⟨s.nextId + 1, Role.assistant, [], none⟩] by simp]
    exact List.dropLast_concat ..
  have hids : (streamEffects (submitStep s content).1 cs).messages.map Msg.id =
      (s.messages.map Msg.id ++ [s.nextId]) ++ [s.nextId + 1] := by
    rw [map_id_of_shape hp.2.2.2.2.1, hsub.1]
    simp
  have hfilter : (streamEffects (submitStep s content).1 cs).messages.filter
        (fun m => m.id != (submitStep s content).2) =
      (streamEffects (submitStep s content).1 cs).messages.dropLast := by
    rw [hsub.2.1]
    apply filter_ne_id_dropLast
    · rw [hids]
      exact List.getLast?_concat ..
    · rw [hids, List.dropLast_concat]
      intro i hi
      rcases List.mem_append.1 hi with hi | hi
      · rcases List.mem_map.1 hi with ⟨m, hm, he⟩
        have := h3 m hm
        omega
      · simp only [List.mem_singleton] at hi
        omega
  have hretry : (retryState s content cs).messages =
      s.messages ++ [⟨s.nextId, Role.user, content, none⟩] := by
    simp only [retryState]
    exact hdrop
  refine ⟨?_, hretry, ?_⟩
  · simp only [sendMessage, h1, Bool.true_eq_false, if_false, hfilter, hs2rc, if_pos h2,
      retryState]
  · rw [(submitStep_facts (retryState s content cs) content).1, hretry]
    simp [List.countP_append, List.countP_cons, msgShape]

/-- Witness for C4 (amended): one failure of a fresh `hi` submit removes the
placeholder, leaves the first user copy, and the resubmission's submit phase
brings the user-copy count to 2. -/
theorem c4_retry_step_amended_w :
    (validateInput hiText).isValid = true ∧ freshSession.retryCount < 3 ∧
    (retryState freshSession hiText []).messages =
      freshSession.messages ++ [⟨0, Role.user, hiText, none⟩] ∧
    (submitStep (retryState freshSession hiText []) hiText).1.messages.countP
        (fun m => decide (m.role = Role.user ∧ m.text = hiText)) =
      freshSession.messages.countP
        (fun m => decide (m.role = Role.user ∧ m.text = hiText)) + 2 :=
  ⟨by decide, by decide,
   (c4_retry_step_amended 3 hiText ("x".data) [] [] freshSession (by decide) (by decide)
      (by simp [freshSession])).2.1,
   (c4_retry_step_amended 3 hiText ("x".data) [] [] freshSession (by decide) (by decide)
      (by simp [freshSession])).2.2⟩

/-- A payload's `type` field strict-equals at most one tag. -/
theorem typeIs_unique {d : Json} {a b : List Char} (ha : typeIs d a = true) (hab : a ≠ b) :
    typeIs d b = false := by
  rcases hf : fieldOf d ("type".data) with _ | v
  · simp [typeIs, jsStrictEq, hf] at ha
  · cases v <;> simp [typeIs, jsStrictEq, hf] at ha ⊢
    intro he
    exact hab (ha ▸ he ▸ rfl)

/-- A line that parses to an event is not blank. -/
theorem parseStreamData_some_trim {buf : List Char} {d : Json}
    (h : parseStreamData buf = some d) : trimStr buf ≠ [] := by
  intro ht
  unfold parseStreamData at h
  simp [ht] at h

/-- C9 (amended): at transport end a non-blank pending buffer is parsed as a
complete line would be, but only `message` and `finish` events take their
complete-line effect; any other event type (`start`, `text-start`,
`text-delta`, `error`) or unparsable buffer leaves the session unchanged. -/
theorem c9_final_buffer_amended (s : Session) (vars : StreamVars) (buf : List Char) :
    ((bufTypeIs buf ("message".data) = true ∨ bufTypeIs buf ("finish".data) = true) →
      processFinalBuffer s vars.currentText buf = (processLine (s, vars) buf).1) ∧
    (bufTypeIs buf ("message".data) = false → bufTypeIs buf ("finish".data) = false →
      processFinalBuffer s vars.currentText buf = s) := by
  rcases h : parseStreamData buf with _ | d
  · constructor
    · intro habs
      rcases habs with habs | habs <;> simp [bufTypeIs, h] at habs
    · intro _ _
      by_cases ht : trimStr buf = [] <;> simp [processFinalBuffer, ht, h]
  · have hbm : bufTypeIs buf ("message".data) = typeIs d ("message".data) := by
      simp [bufTypeIs, h]
    have hbf : bufTypeIs buf ("finish".data) = typeIs d ("finish".data) := by
      simp [bufTypeIs, h]
    have htr : trimStr buf ≠ [] := parseStreamData_some_trim h
    constructor
    · intro habs
      rcases habs with hm | hf2
      · rw [hbm] at hm
        have t1 := typeIs_unique hm (show ("message".data : List Char) ≠ "start".data by decide)
        have t2 := typeIs_unique hm
          (show ("message".data : List Char) ≠ "text-start".data by decide)
        have t3 := typeIs_unique hm
          (show ("message".data : List Char) ≠ "text-delta".data by decide)
        simp only [processFinalBuffer, processLine, applyData, h, htr, hm, t1, t2, t3,
          if_false, if_true, Bool.false_eq_true, ite_false, ite_true, if_neg, ne_eq,
          not_false_eq_true]
        split <;> rfl
      · rw [hbf] at hf2
        have t1 := typeIs_unique hf2 (show ("finish".data : List Char) ≠ "start".data by decide)
        have t2 := typeIs_unique hf2
          (show ("finish".data : List Char) ≠ "text-start".data by decide)
        have t3 := typeIs_unique hf2
          (show ("finish".data : List Char) ≠ "text-delta".data by decide)
        have t4 := typeIs_unique hf2
          (show ("finish".data : List Char) ≠ "message".data by decide)
        simp [processFinalBuffer, processLine, applyData, h, htr, hf2, t1, t2, t3, t4]
    · intro hm hf2
      rw [hbm] at hm
      rw [hbf] at hf2
      simp [processFinalBuffer, h, htr, hm, hf2]

/-- Witness for C9 (amended): a `0:message` snapshot arriving as the
unterminated final buffer takes exactly its complete-line effect. -/
theorem c9_final_buffer_amended_w :
    bufTypeIs (("0:\x7b\"type\":\"message\",\"message\":\x7b\"text\":\"ok\"\x7d\x7d").data)
      ("message".data) = true ∧
    processFinalBuffer sessionMid varsMid.currentText
        (("0:\x7b\"type\":\"message\",\"message\":\x7b\"text\":\"ok\"\x7d\x7d").data) =
      (processLine (sessionMid, varsMid)
        (("0:\x7b\"type\":\"message\",\"message\":\x7b\"text\":\"ok\"\x7d\x7d").data)).1 :=
  ⟨by decide,
   (c9_final_buffer_amended sessionMid varsMid
      (("0:\x7b\"type\":\"message\",\"message\":\x7b\"text\":\"ok\"\x7d\x7d").data)).1
     (Or.inl (by decide))⟩

/-- Facts about any session reachable by stream processing from a submit. -/
theorem postSubmit_facts (s : Session) (content : List Char) (x : Session)
    (hx : sessPreserved (submitStep s content).1 x)
    (h3 : ∀ m ∈ s.messages, m.error = none) (h4 : Status.error ∉ s.trace) :
    x.retryCount = s.retryCount ∧ x.error = none ∧ Status.error ∉ x.trace ∧
    (∀ m ∈ x.messages, m.error = none) ∧
    (x.messages.map Msg.id).getLast? = some (s.nextId + 1) := by
  have hsub := submitStep_facts s content
  refine ⟨hx.2.1.trans hsub.2.2.1, hx.1.trans hsub.2.2.2.1, ?_, ?_, ?_⟩
  · intro hmem
    have h6 := hx.2.2.2.2.2 hmem
    rw [hsub.2.2.2.2.1] at h6
    rcases List.mem_append.1 h6 with h6 | h6
    · exact h4 h6
    · simp at h6
  · refine errors_none_of_shape hx.2.2.2.2.1 ?_
    rw [hsub.1]
    intro m hm
    rcases List.mem_append.1 hm with hm | hm
    · exact h3 m hm
    · simp only [List.mem_cons, List.mem_singleton, List.not_mem_nil, or_false] at hm
      rcases hm with hm | hm <;> subst hm <;> rfl
  · rw [map_id_of_shape hx.2.2.2.2.1, hsub.1]
    rw [show s.messages ++ [(⟨s.nextId, Role.user, content, none⟩ : Msg),
        ⟨s.nextId + 1, Role.assistant, [], none⟩] =
      (s.messages ++ [⟨s.nextId, Role.user, content, none⟩]) ++
        [⟨s.nextId + 1, Role.assistant, [], none⟩] by simp]
    rw [List.map_append]
    exact List.getLast?_concat ..

/-- C7 (amended): the retry counter never exceeds `maxRetries`; the status
is only ever set to `ready` or `streaming` (never to `error`); and when the
session-level error is recorded (the exhausted-retries path), the status is
`ready` and exactly one message — the placeholder — carries the error. -/
theorem c7_retry_bound_amended (mr : Nat) (content : List Char) (outs : List Outcome)
    (s : Session)
    (h1 : (validateInput content).isValid = true)
    (h2 : s.retryCount ≤ mr)
    (h3 : ∀ m ∈ s.messages, m.error = none)
    (h4 : Status.error ∉ s.trace)
    (h5 : s.error = none) :
    (sendMessage mr content outs s).1.retryCount ≤ mr ∧
    Status.error ∉ (sendMessage mr content outs s).1.trace ∧
    ((sendMessage mr content outs s).1.error ≠ none →
      (sendMessage mr content outs s).1.status = Status.ready ∧
      (sendMessage mr content outs s).1.messages.countP (fun m => m.error.isSome) = 1) := by
  revert h2 h3 h4 h5
  induction outs generalizing s with
  | nil =>
    intro h2 h3 h4 h5
    have he : sendMessage mr content [] s = ((submitStep s content).1, []) := by
      simp [sendMessage, h1]
    rw [he]
    have hpf := postSubmit_facts s content (submitStep s content).1 (sessPreserved_refl _) h3 h4
    exact ⟨hpf.1 ▸ h2, hpf.2.2.1, fun hne => absurd hpf.2.1 hne⟩
  | cons o rest ih =>
    intro h2 h3 h4 h5
    cases o with
    | success chunks =>
      have he : sendMessage mr content (Outcome.success chunks :: rest) s =
          ({ processStreamResponse (submitStep s content).1 chunks with retryCount := 0 },
           []) := by
        simp [sendMessage, h1]
      rw [he]
      have hpf := postSubmit_facts s content
        (processStreamResponse (submitStep s content).1 chunks)
        (processStreamResponse_preserved _ _) h3 h4
      refine ⟨by simp, by simpa using hpf.2.2.1, fun hne => ?_⟩
      exact absurd (show ({ processStreamResponse (submitStep s content).1 chunks with
        retryCount := 0 } : Session).error = none by simpa using hpf.2.1) hne
    | aborted chunks =>
      have he : sendMessage mr content (Outcome.aborted chunks :: rest) s =
          (setStat (streamEffects (submitStep s content).1 chunks) Status.ready, []) := by
        simp [sendMessage, h1]
      rw [he]
      have hpf := postSubmit_facts s content (streamEffects (submitStep s content).1 chunks)
        (streamEffects_preserved _ _) h3 h4
      refine ⟨?_, ?_, fun hne => ?_⟩
      · simpa [setStat] using hpf.1 ▸ h2
      · intro hmem
        simp only [setStat, List.mem_append, List.mem_singleton] at hmem
        rcases hmem with hmem | hmem
        · exact hpf.2.2.1 hmem
        · exact Status.noConfusion hmem
      · exact absurd (show (setStat (streamEffects (submitStep s content).1 chunks)
          Status.ready).error = none by simpa [setStat] using hpf.2.1) hne
    | fail emsg chunks =>
      have hpf := postSubmit_facts s content (streamEffects (submitStep s content).1 chunks)
        (streamEffects_preserved _ _) h3 h4
      by_cases hlt : (streamEffects (submitStep s content).1 chunks).retryCount < mr
      · have he : sendMessage mr content (Outcome.fail emsg chunks :: rest) s =
            ((sendMessage mr content rest (retryStateF s content chunks)).1,
             1000 * ((streamEffects (submitStep s content).1 chunks).retryCount + 1) ::
               (sendMessage mr content rest (retryStateF s content chunks)).2) := by
          simp [sendMessage, h1, hlt, retryStateF]
        rw [he]
        have h2r : (retryStateF s content chunks).retryCount ≤ mr := by
          simp only [retryStateF]
          omega
        have h3r : ∀ m ∈ (retryStateF s content chunks).messages, m.error = none := by
          intro m hm
          simp only [retryStateF] at hm
          exact hpf.2.2.2.1 m (List.mem_of_mem_filter hm)
        have h4r : Status.error ∉ (retryStateF s content chunks).trace := by
          simp only [retryStateF]
          exact hpf.2.2.1
        have h5r : (retryStateF s content chunks).error = none := by
          simp only [retryStateF]
          exact hpf.2.1
        exact ih (retryStateF s content chunks) h2r h3r h4r h5r
      · have he : sendMessage mr content (Outcome.fail emsg chunks :: rest) s =
            ({ setStat { streamEffects (submitStep s content).1 chunks with
                  error := some (formatError emsg) } Status.ready with
                messages := attachErrorToLast
                  (streamEffects (submitStep s content).1 chunks).messages
                  (submitStep s content).2 (formatError emsg) }, []) := by
          simp [sendMessage, h1, hlt, setStat]
        rw [he]
        refine ⟨?_, ?_, fun _ => ⟨?_, ?_⟩⟩
        · simpa [setStat] using hpf.1 ▸ h2
        · intro hmem
          simp only [setStat, List.mem_append, List.mem_singleton] at hmem
          rcases hmem with hmem | hmem
          · exact hpf.2.2.1 hmem
          · exact Status.noConfusion hmem
        · simp [setStat]
        · have hid : ((streamEffects (submitStep s content).1
              chunks).messages.map Msg.id).getLast? = some ((submitStep s content).2) := by
            rw [(submitStep_facts s content).2.1]
            exact hpf.2.2.2.2
          simpa using attachErrorToLast_countP
            (streamEffects (submitStep s content).1 chunks).messages
            (submitStep s content).2 (formatError emsg) hpf.2.2.2.1 hid

/-- Witness for C7 (amended): four consecutive failures against
`maxRetries = 3` end with the counter at the bound, no `error` status ever
set, status `ready`, and exactly one error-marked message. -/
theorem c7_retry_bound_amended_w :
    (validateInput hiText).isValid = true ∧
    (sendMessage 3 hiText failsFour freshSession).1.retryCount ≤ 3 ∧
    Status.error ∉ (sendMessage 3 hiText failsFour freshSession).1.trace ∧
    (sendMessage 3 hiText failsFour freshSession).1.status = Status.ready ∧
    (sendMessage 3 hiText failsFour freshSession).1.messages.countP
      (fun m => m.error.isSome) = 1 :=
  ⟨by decide,
   (c7_retry_bound_amended 3 hiText failsFour freshSession (by decide) (by decide)
      (by simp [freshSession]) (by decide) rfl).1,
   (c7_retry_bound_amended 3 hiText failsFour freshSession (by decide) (by decide)
      (by simp [freshSession]) (by decide) rfl).2.1,
   ((c7_retry_bound_amended 3 hiText failsFour freshSession (by decide) (by decide)
      (by simp [freshSession]) (by decide) rfl).2.2 (by decide)).1,
   ((c7_retry_bound_amended 3 hiText failsFour freshSession (by decide) (by decide)
      (by simp [freshSession]) (by decide) rfl).2.2 (by decide)).2⟩
